import Mathlib

/-!
Verification of the sidecar CLI lifecycle subsystem
(`src/packages/desktop/src-tauri/src/cli.rs`).

The Rust code is shallowly embedded: environment variables, the
filesystem and child-process results are passed in explicitly as an
environment record, and every function of the source becomes a pure
Lean function over that record.  The semver crate's version comparison
(used by `sync_cli` through `cli_version >= app_version`) and its
version grammar are embedded from the crate's documented algorithm,
since the compiled behaviour of `sync_cli` is determined by them.
-/

namespace Claudius

/-! ## Semantic versions (the semver crate's data model) -/

/-- A parsed semantic version.  `pre` and `build` hold the raw
pre-release and build-metadata strings (empty when absent), exactly as
the semver crate stores them. -/
structure Version where
  major : Nat
  minor : Nat
  patch : Nat
  pre : String
  build : String
deriving DecidableEq, Repr

/-- Comparison of natural numbers as the Rust `Ord` for `u64`. -/
def natCmp (a b : Nat) : Ordering :=
  if a < b then .lt else if b < a then .gt else .eq

/-- Character comparison by code point (on ASCII identical to Rust's
byte comparison). -/
def chCmp (a b : Char) : Ordering := natCmp a.toNat b.toNat

/-- Lexicographic comparison of character lists. -/
def chListCmp : List Char → List Char → Ordering
  | [], [] => .eq
  | [], _ :: _ => .lt
  | _ :: _, [] => .gt
  | a :: as, b :: bs => (chCmp a b).then (chListCmp as bs)

/-- Lexicographic string comparison, as Rust's `Ord` for `str`
(identical on the ASCII identifiers that appear in versions). -/
def strCmp (a b : String) : Ordering := chListCmp a.data b.data

/-- Whether every character of a string satisfies a predicate
(Rust's `bytes().all` on the ASCII strings involved). -/
def strAll (s : String) (p : Char → Bool) : Bool := s.data.all p

/-- Drop the longest matching prefix (Rust's `trim_start_matches`
with a single-character pattern). -/
def strDropWhile (s : String) (p : Char → Bool) : String :=
  String.mk (s.data.dropWhile p)

/-- Rust's `str::trim`: strip leading and trailing whitespace. -/
def strTrim (s : String) : String :=
  String.mk (((s.data.dropWhile Char.isWhitespace).reverse.dropWhile
    Char.isWhitespace).reverse)

/-- Split on the dot character, as Rust's `split('.')`: the empty
string yields one empty chunk, separators at the edges yield empty
chunks. -/
def splitDotsAux : List Char → List Char → List String
  | [], acc => [String.mk acc.reverse]
  | c :: cs, acc =>
    if c = '.' then String.mk acc.reverse :: splitDotsAux cs []
    else splitDotsAux cs (c :: acc)

/-- Split a string on dots. -/
def splitDots (s : String) : List String := splitDotsAux s.data []

/-- Comparison of one pre-release identifier, as in the semver crate:
numeric identifiers (which carry no leading zeros) are compared by
length then content, numeric sorts below alphanumeric, and
alphanumeric identifiers are compared lexically. -/
def preIdentCmp (l r : String) : Ordering :=
  match strAll l Char.isDigit, strAll r Char.isDigit with
  | true, true => (natCmp l.length r.length).then (strCmp l r)
  | true, false => .lt
  | false, true => .gt
  | false, false => strCmp l r

/-- Comparison of one build-metadata identifier, as in the semver
crate: numeric identifiers may carry leading zeros and are compared by
their zero-stripped value, then by their literal length. -/
def buildIdentCmp (l r : String) : Ordering :=
  match strAll l Char.isDigit, strAll r Char.isDigit with
  | true, true =>
    let lv := strDropWhile l (· = '0')
    let rv := strDropWhile r (· = '0')
    (natCmp lv.length rv.length).then ((strCmp lv rv).then (natCmp l.length r.length))
  | true, false => .lt
  | false, true => .gt
  | false, false => strCmp l r

/-- Walk two dot-separated identifier lists; a strict prefix sorts
lower, as in the semver crate. -/
def identListCmp (f : String → String → Ordering) : List String → List String → Ordering
  | [], [] => .eq
  | [], _ :: _ => .lt
  | _ :: _, [] => .gt
  | l :: ls, r :: rs => (f l r).then (identListCmp f ls rs)

/-- Pre-release comparison of the semver crate: an absent pre-release
(empty string) sorts above any present one. -/
def preCmp (l r : String) : Ordering :=
  if l = "" then (if r = "" then .eq else .gt)
  else if r = "" then .lt
  else identListCmp preIdentCmp (splitDots l) (splitDots r)

/-- Build-metadata comparison, the semver crate's extension of SemVer
precedence used to make `Ord` total. -/
def buildCmp (l r : String) : Ordering :=
  identListCmp buildIdentCmp (splitDots l) (splitDots r)

/-- SemVer precedence (SemVer spec item 11): major, minor, patch, then
pre-release; build metadata is ignored. -/
def semverPrecCmp (a b : Version) : Ordering :=
  (natCmp a.major b.major).then
    ((natCmp a.minor b.minor).then
      ((natCmp a.patch b.patch).then (preCmp a.pre b.pre)))

/-- The semver crate's total order on versions, used by the Rust
comparison `cli_version >= app_version`: SemVer precedence refined by
the build-metadata tiebreak. -/
def Version.cmp (a b : Version) : Ordering :=
  (semverPrecCmp a b).then (buildCmp a.build b.build)

/-- Rust's `>=` on an `Ord` type: `cmp` is `Greater` or `Equal`. -/
def ordIsGe : Ordering → Bool
  | .lt => false
  | _ => true

/-! ## Parsing a version string (the semver crate's grammar) -/

/-- Characters allowed in pre-release and build identifiers:
ASCII alphanumerics and hyphen. -/
def isIdentChar (c : Char) : Bool := c.isAlphanum || c = '-'

/-- Split a leading run of ASCII digits off a character list. -/
def takeDigits : List Char → List Char × List Char
  | [] => ([], [])
  | c :: cs =>
    if c.isDigit then
      let r := takeDigits cs
      (c :: r.1, r.2)
    else ([], c :: cs)

/-- Decimal value of a digit run. -/
def digitsVal (ds : List Char) : Nat :=
  List.foldl (fun a c => a * 10 + (c.toNat - 48)) 0 ds

/-- Parse one numeric component (major, minor or patch): a nonempty
digit run without leading zeros whose value fits in a `u64`. -/
def parseNumId (cs : List Char) : Option (Nat × List Char) :=
  let p := takeDigits cs
  match p.1 with
  | [] => none
  | d :: ds =>
    if d = '0' ∧ ds ≠ [] then none
    else
      let n := digitsVal (d :: ds)
      if n < 18446744073709551616 then some (n, p.2) else none

/-- Validity of one pre-release identifier: nonempty, identifier
characters only, and a numeric identifier carries no leading zero. -/
def validPreIdent (s : String) : Bool :=
  s ≠ "" && strAll s isIdentChar &&
    (!(strAll s Char.isDigit) || s.length = 1 || s.front ≠ '0')

/-- Validity of one build-metadata identifier: nonempty, identifier
characters only (leading zeros are allowed). -/
def validBuildIdent (s : String) : Bool :=
  s ≠ "" && strAll s isIdentChar

/-- Parse the optional `+build` suffix; the remaining input must be
consumed entirely. -/
def parseBuild (ma mi pa : Nat) (pre : String) (r : List Char) : Option Version :=
  let sp := r.span (fun c => isIdentChar c || c = '.')
  let buildStr := String.mk sp.1
  if sp.2 = [] ∧ (splitDots buildStr).all validBuildIdent then
    some ⟨ma, mi, pa, pre, buildStr⟩
  else none

/-- Parse what follows `major.minor.patch`: nothing, `-pre`,
`-pre+build` or `+build`. -/
def parseSuffix (ma mi pa : Nat) (r : List Char) : Option Version :=
  match r with
  | [] => some ⟨ma, mi, pa, "", ""⟩
  | '-' :: rest =>
    let sp := rest.span (fun c => isIdentChar c || c = '.')
    let preStr := String.mk sp.1
    if (splitDots preStr).all validPreIdent then
      match sp.2 with
      | [] => some ⟨ma, mi, pa, preStr, ""⟩
      | '+' :: rest2 => parseBuild ma mi pa preStr rest2
      | _ => none
    else none
  | '+' :: rest => parseBuild ma mi pa "" rest
  | _ => none

/-- `semver::Version::parse`: `major.minor.patch` with optional
pre-release and build-metadata suffixes. -/
def parseVersion (s : String) : Option Version :=
  match parseNumId s.toList with
  | none => none
  | some (ma, r1) =>
    match r1 with
    | '.' :: r1b =>
      match parseNumId r1b with
      | none => none
      | some (mi, r2) =>
        match r2 with
        | '.' :: r2b =>
          match parseNumId r2b with
          | none => none
          | some (pa, r3) => parseSuffix ma mi pa r3
        | _ => none
    | _ => none

/-! ## Shell resolution, install path, commands -/

/-- `get_user_shell`: `std::env::var("SHELL").unwrap_or_else(|_| "/bin/sh")`.
`shellVar` is the value of the `SHELL` environment variable (`none`
when the variable is absent); note that `std::env::var` succeeds on an
empty-but-set variable. -/
def get_user_shell (shellVar : Option String) : String :=
  shellVar.getD "/bin/sh"

/-- The constant `CLI_INSTALL_DIR`. -/
def CLI_INSTALL_DIR : String := ".opencode/bin"

/-- The constant `CLI_BINARY_NAME`. -/
def CLI_BINARY_NAME : String := "opencode"

/-- `std::path::PathBuf::push` with a relative component: a separator
is inserted only when the base is nonempty and does not already end in
one. -/
def pathJoin (a b : String) : String :=
  if a.data = [] then b
  else if a.data.getLast? = some '/' then a ++ b
  else a ++ "/" ++ b

/-- `get_cli_install_path`: maps `HOME` (absent ↦ `None`) to
`<home>/.opencode/bin/opencode`. -/
def get_cli_install_path (home : Option String) : Option String :=
  home.map (fun h => pathJoin (pathJoin h CLI_INSTALL_DIR) CLI_BINARY_NAME)

/-- `is_cli_installed`: the resolved install path exists on disk;
false when resolution fails.  `pathExists` is the filesystem's
point-in-time existence predicate. -/
def is_cli_installed (home : Option String) (pathExists : String → Bool) : Bool :=
  match get_cli_install_path home with
  | some p => pathExists p
  | none => false

/-- A `std::process::Command`: program plus ordered argument list. -/
structure Cmd where
  prog : String
  args : List String
deriving DecidableEq, Repr

/-- `Command::args`: append further arguments. -/
def cmdAddArgs (c : Cmd) (extra : List String) : Cmd :=
  ⟨c.prog, c.args ++ extra⟩

/-- `create_command` on the non-Windows branch: the resolved shell run
as `shell -il -c "<sidecar>" "$@" --`, arguments to be appended after
the `--`. -/
def create_command (shellVar : Option String) (sidecar : String) : Cmd :=
  ⟨get_user_shell shellVar, ["-il", "-c", "\"" ++ sidecar ++ "\" \"$@\"", "--"]⟩

/-- `create_command` on the Windows branch: the sidecar invoked
directly. -/
def create_command_windows (sidecar : String) : Cmd :=
  ⟨sidecar, []⟩

/-- The command `sync_cli` builds to query the installed binary's
version: `Command::new(&cli_path).arg("--version")` — a direct
invocation, not routed through `create_command`. -/
def sync_version_cmd (cliPath : String) : Cmd :=
  ⟨cliPath, ["--version"]⟩

/-- The command `get_config` builds:
`create_command(sidecar)` with `["debug", "config"]` appended. -/
def get_config_cmd (shellVar : Option String) (sidecar : String) : Cmd :=
  cmdAddArgs (create_command shellVar sidecar) ["debug", "config"]

/-! ## Config reader -/

/-- `ServerConfig`: two optional fields. -/
structure ServerConfig where
  hostname : Option String
  port : Option Nat
deriving DecidableEq, Repr

/-- `Config`: an optional nested `server` section. -/
structure Config where
  server : Option ServerConfig
deriving DecidableEq, Repr

/-- JSON values, as produced by `serde_json` (numbers restricted to
integers, the only kind the configuration schema accepts). -/
inductive Json where
  | null
  | bool (b : Bool)
  | num (n : Int)
  | str (s : String)
  | arr (elems : List Json)
  | obj (fields : List (String × Json))

/-- First value bound to a key in a JSON object. -/
def findField (key : String) : List (String × Json) → Option Json
  | [] => none
  | (k, v) :: rest => if k = key then some v else findField key rest

/-- Number of bindings of a key in a JSON object (serde rejects
duplicate occurrences of a known field). -/
def countField (key : String) (fields : List (String × Json)) : Nat :=
  (fields.filter (fun kv => kv.1 = key)).length

/-- serde deserialization of `Option<String>`. -/
def deserializeOptString : Json → Option (Option String)
  | .null => some none
  | .str s => some (some s)
  | _ => none

/-- serde deserialization of `Option<u32>`: an integer in `u32` range. -/
def deserializeOptPort : Json → Option (Option Nat)
  | .null => some none
  | .num n => if 0 ≤ n ∧ n ≤ 4294967295 then some (some n.toNat) else none
  | _ => none

/-- serde deserialization of `ServerConfig`: a map (or a two-element
tuple sequence); fields of type `Option<_>` default to `None` when
missing, unknown fields are ignored, duplicate known fields are
rejected. -/
def deserializeServerConfig : Json → Option ServerConfig
  | .obj fields =>
    if 2 ≤ countField "hostname" fields ∨ 2 ≤ countField "port" fields then none
    else
      match (match findField "hostname" fields with
             | none => some none
             | some j => deserializeOptString j) with
      | none => none
      | some h =>
        match (match findField "port" fields with
               | none => some none
               | some j => deserializeOptPort j) with
        | none => none
        | some p => some ⟨h, p⟩
  | .arr [hj, pj] =>
    match deserializeOptString hj with
    | none => none
    | some h =>
      match deserializeOptPort pj with
      | none => none
      | some p => some ⟨h, p⟩
  | _ => none

/-- serde deserialization of `Option<ServerConfig>`. -/
def deserializeOptServer : Json → Option (Option ServerConfig)
  | .null => some none
  | j => (deserializeServerConfig j).map some

/-- serde deserialization of `Config`. -/
def deserializeConfig : Json → Option Config
  | .obj fields =>
    if 2 ≤ countField "server" fields then none
    else
      match findField "server" fields with
      | none => some ⟨none⟩
      | some j => (deserializeOptServer j).map (fun s => ⟨s⟩)
  | .arr [sj] => (deserializeOptServer sj).map (fun s => ⟨s⟩)
  | _ => none

/-- The outcome of one spawned `debug config` query: the child's exit
status and the `serde_json` parse of its stdout (`none` when the
stdout is not valid JSON). -/
structure ConfigSpawn where
  success : Bool
  stdoutJson : Option Json

/-- Environment of one `get_config` call: `none` when the process
failed to spawn. -/
structure GetConfigEnv where
  spawn : Option ConfigSpawn

/-- `get_config`: collapse spawn failure, nonzero exit and
unparseable stdout into `None`, otherwise deserialize. -/
def get_config (env : GetConfigEnv) : Option Config :=
  match env.spawn with
  | none => none
  | some out =>
    if out.success = false then none
    else
      match out.stdoutJson with
      | none => none
      | some j => deserializeConfig j

/-! ## Installer -/

/-- A reaped child process: exit-status success flag, stdout, stderr. -/
structure ProcOutput where
  success : Bool
  stdout : String
  stderr : String
deriving DecidableEq, Repr

/-- Environment of one `install_cli` call: the platform, the bundled
sidecar's existence, and the results of the three fallible effects in
program order (`fs::write`, `fs::set_permissions`, spawning the
script), plus `HOME` for the final path resolution. -/
structure InstallEnv where
  isUnix : Bool
  sidecarExists : Bool
  writeScript : Except String Unit
  setPerms : Except String Unit
  runScript : Except String ProcOutput
  home : Option String

/-- Boolean success test for `Except`. -/
def exceptOk {ε α : Type} : Except ε α → Bool
  | .ok _ => true
  | .error _ => false

/-- Result of `install_cli`, instrumented with whether the temporary
script file was written and whether its deletion was attempted
(`let _ = std::fs::remove_file(&temp_script)`). -/
structure InstallResult where
  result : Except String String
  scriptWritten : Bool
  removeAttempted : Bool

/-- `install_cli`, step for step: platform gate, sidecar check, write
the script, set permissions (an early `?` return), run it (an early
`?` return), delete it, check the exit status, re-derive the install
path. -/
def install_cli (env : InstallEnv) : InstallResult :=
  if env.isUnix = false then
    ⟨.error "CLI installation is only supported on macOS & Linux", false, false⟩
  else if env.sidecarExists = false then
    ⟨.error "Sidecar binary not found", false, false⟩
  else
    match env.writeScript with
    | .error e => ⟨.error ("Failed to write install script: " ++ e), false, false⟩
    | .ok _ =>
      match env.setPerms with
      | .error e => ⟨.error ("Failed to set script permissions: " ++ e), true, false⟩
      | .ok _ =>
        match env.runScript with
        | .error e => ⟨.error ("Failed to run install script: " ++ e), true, false⟩
        | .ok out =>
          if out.success = false then
            ⟨.error ("Install script failed: " ++ out.stderr), true, true⟩
          else
            match get_cli_install_path env.home with
            | none => ⟨.error "Could not determine install path", true, true⟩
            | some installPath => ⟨.ok installPath, true, true⟩

/-! ## Version sync policy -/

/-- Environment of one `sync_cli` call: build kind, `HOME`, the
filesystem, the result of spawning `<cli_path> --version`, the
application's own version, and the environment of the nested
`install_cli` call. -/
structure SyncEnv where
  debugBuild : Bool
  home : Option String
  pathExists : String → Bool
  versionSpawn : Except String ProcOutput
  appVersion : Version
  installEnv : InstallEnv

/-- Result of `sync_cli`, instrumented with whether `install_cli` was
invoked, which version-query command (if any) was built, and whether
the `"Could not determine CLI install path"` branch was taken. -/
structure SyncResult where
  outcome : Except String Unit
  installInvoked : Bool
  versionCmd : Option Cmd
  pathResolveFailed : Bool

/-- `sync_cli`, step for step: debug-build gate, installed check,
path resolution, `--version` spawn and status check, trim and parse,
semver comparison via the crate's order, conditional install. -/
def sync_cli (env : SyncEnv) : SyncResult :=
  if env.debugBuild = true then ⟨.ok (), false, none, false⟩
  else if is_cli_installed env.home env.pathExists = false then ⟨.ok (), false, none, false⟩
  else
    match get_cli_install_path env.home with
    | none => ⟨.error "Could not determine CLI install path", false, none, true⟩
    | some cliPath =>
      let vcmd := sync_version_cmd cliPath
      match env.versionSpawn with
      | .error e => ⟨.error ("Failed to get CLI version: " ++ e), false, some vcmd, false⟩
      | .ok out =>
        if out.success = false then
          ⟨.error "Failed to get CLI version", false, some vcmd, false⟩
        else
          let vstr := strTrim out.stdout
          match parseVersion vstr with
          | none =>
            ⟨.error ("Failed to parse CLI version '" ++ vstr ++ "'"), false, some vcmd, false⟩
          | some cliVersion =>
            if ordIsGe (Version.cmp cliVersion env.appVersion) then
              ⟨.ok (), false, some vcmd, false⟩
            else
              match (install_cli env.installEnv).result with
              | .error e => ⟨.error e, true, some vcmd, false⟩
              | .ok _ => ⟨.ok (), true, some vcmd, false⟩

/-! ## Model of the POSIX shell (external collaborator)

The shell that executes `create_command`'s argument list is not part
of this repository; the following definitions model, from the spec's
words (section 4.2), the fragment of POSIX `sh -c` semantics the
command template relies on: a command string made of double-quoted
words, where the quoted word `$@` expands to the positional
parameters one field each, and a quoted word free of the expansion
characters (dollar, backslash, backquote) expands to its literal
text. -/

/-- Modelled from the spec: scan one double-quoted word (after its
opening quote), returning its content and the remaining input. -/
def scanQuotedAux : List Char → Option (List Char × List Char)
  | [] => none
  | c :: rest =>
    if c = '"' then some ([], rest)
    else (scanQuotedAux rest).map (fun p => (c :: p.1, p.2))

/-- Modelled from the spec: scan one double-quoted word. -/
def scanQuoted : List Char → Option (List Char × List Char)
  | '"' :: rest => scanQuotedAux rest
  | _ => none

/-- Modelled from the spec: split a command string into its
space-separated double-quoted words (fuel-indexed; the fuel bounds
the number of words). -/
def parseWordsGo : Nat → List Char → Option (List (List Char))
  | _, [] => some []
  | 0, _ :: _ => none
  | fuel + 1, c :: cs =>
    match scanQuoted (c :: cs) with
    | none => none
    | some (w, rest) =>
      match rest with
      | [] => some [w]
      | ' ' :: rest2 => (parseWordsGo fuel rest2).map (fun ws => w :: ws)
      | _ => none

/-- Modelled from the spec: the word list of a fully-quoted command
string. -/
def parseWords (cs : List Char) : Option (List (List Char)) :=
  parseWordsGo cs.length cs

/-- Modelled from the spec: expand one word; `"$@"` becomes the
positional parameters (one field each, never rescanned), other words
must be free of dollar, backslash and backquote and are literal. -/
def expandWord (params : List String) (w : List Char) : Option (List String) :=
  if w = ['$', '@'] then some params
  else if w.any (fun c => c = '$' || c = '\\' || c.toNat = 96) then none
  else some [String.mk w]

/-- Modelled from the spec: the fields produced by running a
fully-quoted command string with the given positional parameters. -/
def expandCommandString (s : String) (params : List String) : Option (List String) :=
  match parseWords s.toList with
  | none => none
  | some ws =>
    match ws.mapM (expandWord params) with
    | none => none
    | some fieldss => some fieldss.flatten

/-- Modelled from the spec: a POSIX shell invoked with argument list
`-il -c <cmdstring> <name> <params...>` runs the command string with
the given positional parameters, producing the field list that is
then executed (head = program, tail = its arguments). -/
def shellExec (args : List String) : Option (List String) :=
  match args with
  | "-il" :: "-c" :: s :: _ :: rest => expandCommandString s rest
  | _ => none

/-- A target-path character the quoting in `create_command` handles
verbatim: anything except a double quote and the characters that are
special inside double quotes (dollar, backslash, backquote). -/
def goodChar (c : Char) : Bool :=
  !(c = '"' || c = '$' || c = '\\' || c.toNat = 96)

/-! ## Helper lemmas -/

lemma ordThen_eq (x : Ordering) : x.then .eq = x := by
  cases x <;> rfl

lemma ordEqThen (x : Ordering) : Ordering.eq.then x = x := rfl

lemma natCmp_self (n : Nat) : natCmp n n = .eq := by
  simp [natCmp]

lemma chListCmp_self : ∀ l : List Char, chListCmp l l = .eq := by
  intro l
  induction l with
  | nil => rfl
  | cons c cs ih => simp [chListCmp, chCmp, natCmp_self, ih, ordEqThen]

lemma strCmp_self (s : String) : strCmp s s = .eq := chListCmp_self s.data

lemma preIdentCmp_self (s : String) : preIdentCmp s s = .eq := by
  unfold preIdentCmp
  cases h : strAll s Char.isDigit <;> simp [h, natCmp_self, strCmp_self, ordEqThen]

lemma buildIdentCmp_self (s : String) : buildIdentCmp s s = .eq := by
  unfold buildIdentCmp
  cases h : strAll s Char.isDigit <;> simp [h, natCmp_self, strCmp_self, ordEqThen]

lemma identListCmp_self (f : String → String → Ordering)
    (hf : ∀ s, f s s = .eq) : ∀ l : List String, identListCmp f l l = .eq := by
  intro l
  induction l with
  | nil => rfl
  | cons x xs ih => simp [identListCmp, hf, ih, ordEqThen]

lemma preCmp_self (s : String) : preCmp s s = .eq := by
  unfold preCmp
  by_cases h : s = "" <;> simp [h, identListCmp_self preIdentCmp preIdentCmp_self]

lemma buildCmp_self (s : String) : buildCmp s s = .eq := by
  unfold buildCmp
  exact identListCmp_self buildIdentCmp buildIdentCmp_self _

lemma semverPrecCmp_self (v : Version) : semverPrecCmp v v = .eq := by
  simp [semverPrecCmp, natCmp_self, preCmp_self, ordEqThen]

lemma version_cmp_self (v : Version) : Version.cmp v v = .eq := by
  simp [Version.cmp, semverPrecCmp_self, buildCmp_self, ordEqThen]

lemma is_cli_installed_some {home : Option String} {pathExists : String → Bool}
    (h : is_cli_installed home pathExists = true) :
    ∃ p, get_cli_install_path home = some p := by
  cases hh : home with
  | none => rw [hh] at h; simp [is_cli_installed, get_cli_install_path] at h
  | some s => exact ⟨_, rfl⟩

lemma strDataAppend (a b : String) : (a ++ b).data = a.data ++ b.data := rfl

lemma strAppendAssoc (a b c : String) : a ++ b ++ c = a ++ (b ++ c) := by
  cases a; cases b; cases c
  exact congrArg String.mk (List.append_assoc _ _ _)

lemma strMkData (s : String) : String.mk s.data = s := rfl

lemma scanQuotedAux_closes (p : List Char) (r : List Char)
    (hp : p.all (fun c => !(c = '"')) = true) :
    scanQuotedAux (p ++ '"' :: r) = some (p, r) := by
  induction p with
  | nil => simp [scanQuotedAux]
  | cons c cs ih =>
    simp only [List.all_cons, Bool.and_eq_true, Bool.not_eq_true'] at hp
    have hne : ¬(c = '"') := by
      intro hc; rw [hc] at hp; simp at hp
    simp [scanQuotedAux, hne, ih (by simpa using hp.2)]

/-! ## Shared concrete environments -/

/-- An installer environment in which every effect succeeds. -/
def instOkEnv : InstallEnv :=
  ⟨true, true, .ok (), .ok (), .ok ⟨true, "", ""⟩, some "/home/u"⟩

/-! ## Claim C4 -/

/-- C4 counterexample: with `SHELL` set to the empty string,
`get_user_shell` returns the empty string, not the default
`"/bin/sh"` — `std::env::var` succeeds on an empty-but-set variable,
so the fallback is not triggered. -/
theorem get_user_shell_empty_cex :
    get_user_shell (some "") = "" ∧ "" ≠ "/bin/sh" :=
  ⟨rfl, by decide⟩

/-- C4 (amended): `get_user_shell` returns the value of `SHELL`
whenever the variable is present — including when it is set to the
empty string — and returns the fixed default `"/bin/sh"` only when
the variable is absent. -/
theorem get_user_shell_spec :
    (∀ s : String, get_user_shell (some s) = s) ∧ get_user_shell none = "/bin/sh" :=
  ⟨fun _ => rfl, rfl⟩

/-! ## Claim C3 -/

/-- C3: `sync_cli` in a debug build returns success immediately with
no install attempted (regardless of any version or installation
state), and when `is_cli_installed` is false it returns success with
no install attempted. -/
theorem sync_cli_skip_spec (env : SyncEnv) :
    (env.debugBuild = true → sync_cli env = ⟨.ok (), false, none, false⟩)
    ∧ (is_cli_installed env.home env.pathExists = false →
        (sync_cli env).installInvoked = false ∧ (sync_cli env).outcome = .ok ()) := by
  constructor
  · intro h
    simp [sync_cli, h]
  · intro h
    cases hd : env.debugBuild
    · simp [sync_cli, hd, h]
    · simp [sync_cli, hd]

/-- C3 witness: a debug-build environment skips, and a
release-build environment with no installation skips. -/
theorem sync_cli_skip_spec_witness :
    sync_cli ⟨true, some "/home/u", fun _ => true, .ok ⟨true, "1.0.0", ""⟩,
        ⟨1, 0, 0, "", ""⟩, instOkEnv⟩ = ⟨.ok (), false, none, false⟩
    ∧ ((sync_cli ⟨false, none, fun _ => false, .error "e", ⟨1, 0, 0, "", ""⟩,
          instOkEnv⟩).installInvoked = false
       ∧ (sync_cli ⟨false, none, fun _ => false, .error "e", ⟨1, 0, 0, "", ""⟩,
            instOkEnv⟩).outcome = .ok ()) :=
  ⟨(sync_cli_skip_spec _).1 rfl, (sync_cli_skip_spec _).2 rfl⟩

/-! ## Claim C2 -/

/-- An installer environment whose permission-setting step fails. -/
def c2env : InstallEnv :=
  ⟨true, true, .ok (), .error "EPERM", .ok ⟨true, "", ""⟩, some "/home/u"⟩

/-- C2 counterexample: when `fs::set_permissions` fails after the
temporary script was written, `install_cli` returns the error through
`?` without ever attempting to delete the script file. -/
theorem install_cli_cleanup_cex :
    (install_cli c2env).scriptWritten = true
    ∧ (install_cli c2env).removeAttempted = false
    ∧ (install_cli c2env).result = .error "Failed to set script permissions: EPERM" :=
  ⟨rfl, rfl, rfl⟩

/-- C2 (amended): `install_cli` attempts to delete the temporary
script exactly on the executions in which every step up to and
including spawning the installer script succeeded — so deletion is
attempted on script success and on script nonzero exit, but the
permission-setting-failure and process-spawn-failure paths return
early without attempting deletion. -/
theorem install_cli_cleanup_iff (env : InstallEnv) :
    (install_cli env).removeAttempted = true ↔
      (env.isUnix = true ∧ env.sidecarExists = true
        ∧ exceptOk env.writeScript = true ∧ exceptOk env.setPerms = true
        ∧ exceptOk env.runScript = true) := by
  rcases env with ⟨u, se, w, sp, rs, hm⟩
  cases u <;> cases se <;> rcases w with e | w <;> rcases sp with e2 | s2 <;>
    rcases rs with e3 | o <;> simp [install_cli, exceptOk] <;>
    cases ho : o.success <;> simp [ho] <;> cases hm <;> simp [get_cli_install_path]

/-- C2 witness: in a fully successful environment the deletion is
attempted. -/
theorem install_cli_cleanup_iff_witness :
    (install_cli instOkEnv).removeAttempted = true :=
  (install_cli_cleanup_iff instOkEnv).mpr (by decide)

/-! ## Claim C10 -/

/-- C10: the `debug config` query command is built via
`create_command`, so its program is the resolved user shell (not the
sidecar, whenever the two differ) and the fixed arguments
`["debug", "config"]` are appended after the `"--"` separator. -/
theorem get_config_cmd_spec (shellVar : Option String) (sidecar : String) :
    (get_config_cmd shellVar sidecar).prog = get_user_shell shellVar
    ∧ (get_config_cmd shellVar sidecar).args
        = ["-il", "-c", "\"" ++ sidecar ++ "\" \"$@\"", "--", "debug", "config"]
    ∧ (get_user_shell shellVar ≠ sidecar →
        (get_config_cmd shellVar sidecar).prog ≠ sidecar) := by
  refine ⟨rfl, rfl, fun h => ?_⟩
  simpa [get_config_cmd, cmdAddArgs, create_command] using h

/-- C10 witness: with `SHELL=/bin/zsh` the spawned program for the
configuration query is the shell, not the sidecar path. -/
theorem get_config_cmd_spec_witness :
    (get_config_cmd (some "/bin/zsh") "/side").prog ≠ "/side" :=
  (get_config_cmd_spec (some "/bin/zsh") "/side").2.2 (by decide)

/-- Evaluation of `sync_cli` past its two skip gates: with a release
build and an installation present, the call resolves the path and
proceeds to the version query. -/
lemma sync_cli_run (env : SyncEnv) (p : String)
    (hdbg : env.debugBuild = false)
    (hinst : is_cli_installed env.home env.pathExists = true)
    (hp : get_cli_install_path env.home = some p) :
    sync_cli env =
      (match env.versionSpawn with
       | .error e =>
         ⟨.error ("Failed to get CLI version: " ++ e), false,
          some (sync_version_cmd p), false⟩
       | .ok out =>
         if out.success = false then
           ⟨.error "Failed to get CLI version", false, some (sync_version_cmd p), false⟩
         else
           match parseVersion (strTrim out.stdout) with
           | none =>
             ⟨.error ("Failed to parse CLI version '" ++ strTrim out.stdout ++ "'"), false,
              some (sync_version_cmd p), false⟩
           | some cliVersion =>
             if ordIsGe (Version.cmp cliVersion env.appVersion) then
               ⟨.ok (), false, some (sync_version_cmd p), false⟩
             else
               match (install_cli env.installEnv).result with
               | .error e => ⟨.error e, true, some (sync_version_cmd p), false⟩
               | .ok _ => ⟨.ok (), true, some (sync_version_cmd p), false⟩) := by
  simp [sync_cli, hdbg, hinst, hp]

/-! ## Claim C9 -/

/-- C9: with the process environment fixed for the duration of the
call, `is_cli_installed` returning true forces `get_cli_install_path`
to return `Some` (it already required `HOME` to be set), so the
`"Could not determine CLI install path"` failure branch of `sync_cli`
is unreachable. -/
theorem sync_cli_path_branch_unreachable :
    (∀ (home : Option String) (pathExists : String → Bool),
       is_cli_installed home pathExists = true → get_cli_install_path home ≠ none)
    ∧ (∀ env : SyncEnv, (sync_cli env).pathResolveFailed = false) := by
  constructor
  · intro home pe h
    obtain ⟨p, hp⟩ := is_cli_installed_some h
    simp [hp]
  · intro env
    cases hd : env.debugBuild
    · cases hi : is_cli_installed env.home env.pathExists
      · simp [sync_cli, hd, hi]
      · obtain ⟨p, hp⟩ := is_cli_installed_some hi
        rw [sync_cli_run env p hd hi hp]
        cases hv : env.versionSpawn
        · rfl
        · simp only []
          repeat' split
          all_goals rfl
    · simp [sync_cli, hd]

/-- C9 witness: a concrete installed environment resolves its path,
and a concrete full run never takes the failure branch. -/
theorem sync_cli_path_branch_unreachable_witness :
    get_cli_install_path (some "/home/u") ≠ none
    ∧ (sync_cli ⟨false, some "/home/u", fun _ => true, .ok ⟨true, "0.9.0", ""⟩,
         ⟨1, 0, 0, "", ""⟩, instOkEnv⟩).pathResolveFailed = false :=
  ⟨sync_cli_path_branch_unreachable.1 (some "/home/u") (fun _ => true) rfl,
   sync_cli_path_branch_unreachable.2 _⟩

/-! ## Claim C5 -/

lemma pathJoin_of_no_slash (a b : String) (h1 : a.data ≠ [])
    (h2 : a.data.getLast? ≠ some '/') : pathJoin a b = a ++ "/" ++ b := by
  unfold pathJoin
  rw [if_neg h1, if_neg h2]

/-- C5: `get_cli_install_path` returns absence exactly when `HOME` is
unset; otherwise it returns `<home>/.opencode/bin/opencode` (written
out literally whenever the home value is nonempty and has no trailing
separator, e.g. `/home/u ↦ /home/u/.opencode/bin/opencode`); and a
successful `install_cli` returns exactly this re-derived path. -/
theorem get_cli_install_path_spec :
    (∀ home : Option String, (get_cli_install_path home = none ↔ home = none))
    ∧ (∀ h : String, h.data ≠ [] → h.data.getLast? ≠ some '/' →
        get_cli_install_path (some h) = some (h ++ "/.opencode/bin/opencode"))
    ∧ get_cli_install_path (some "/home/u") = some "/home/u/.opencode/bin/opencode"
    ∧ (∀ (env : InstallEnv) (p : String),
        (install_cli env).result = .ok p → get_cli_install_path env.home = some p) := by
  refine ⟨?_, ?_, rfl, ?_⟩
  · intro home
    cases home <;> simp [get_cli_install_path]
  · intro h h1 h2
    show some (pathJoin (pathJoin h CLI_INSTALL_DIR) CLI_BINARY_NAME) = _
    rw [pathJoin_of_no_slash h CLI_INSTALL_DIR h1 h2]
    have hne : (h ++ "/" ++ CLI_INSTALL_DIR).data ≠ [] := by
      rw [strDataAppend]
      simp [CLI_INSTALL_DIR]
    have hlast : (h ++ "/" ++ CLI_INSTALL_DIR).data.getLast? ≠ some '/' := by
      rw [strDataAppend, List.getLast?_append]
      have hc : CLI_INSTALL_DIR.data.getLast? = some 'n' := rfl
      rw [hc]
      exact fun hcon => (by decide : some 'n' ≠ some '/') hcon
    rw [pathJoin_of_no_slash _ CLI_BINARY_NAME hne hlast]
    rw [strAppendAssoc, strAppendAssoc, strAppendAssoc]
    rfl
  · intro env p hp
    rcases env with ⟨u, se, w, sp, rs, hm⟩
    cases u <;> cases se <;> rcases w with e | w <;> rcases sp with e2 | s2 <;>
      rcases rs with e3 | o <;> simp [install_cli] at hp <;>
      cases ho : o.success <;> rw [ho] at hp <;> simp at hp <;>
      cases hm <;> simp_all [get_cli_install_path]

/-- C5 witness: the literal-path form at home `/home/u`, and the
install link at a concrete fully successful environment. -/
theorem get_cli_install_path_spec_witness :
    get_cli_install_path (some "/home/u") = some "/home/u/.opencode/bin/opencode"
    ∧ get_cli_install_path instOkEnv.home = some "/home/u/.opencode/bin/opencode" :=
  ⟨get_cli_install_path_spec.2.1 "/home/u" (by decide) (by decide),
   get_cli_install_path_spec.2.2.2 instOkEnv "/home/u/.opencode/bin/opencode" rfl⟩

/-! ## Claim C6 -/

/-- A sync environment whose version spawn fails (the command is
still built first, as in the source). -/
def c6env : SyncEnv :=
  ⟨false, some "/home/u", fun _ => true, .error "spawn failed",
   ⟨1, 0, 0, "", ""⟩, instOkEnv⟩

/-- C6 counterexample: the version-query command `sync_cli` builds
runs the installed binary directly; the `create_command`-wrapped
invocation the claim describes would instead run the user's shell,
and the two commands differ. -/
theorem sync_version_cmd_cex :
    (sync_cli c6env).versionCmd
        = some ⟨"/home/u/.opencode/bin/opencode", ["--version"]⟩
    ∧ (cmdAddArgs (create_command (some "/bin/zsh") "/home/u/.opencode/bin/opencode")
         ["--version"]).prog = "/bin/zsh"
    ∧ ("/bin/zsh" : String) ≠ "/home/u/.opencode/bin/opencode" :=
  ⟨rfl, rfl, by decide⟩

/-- C6 (amended): whenever `sync_cli` reaches the version query (a
release build with an installation present), the command it builds
invokes the installed binary directly with the single argument
`--version`; it is not routed through `create_command`, whose program
would be the resolved user shell. -/
theorem sync_version_cmd_direct (env : SyncEnv) (p : String)
    (hdbg : env.debugBuild = false)
    (hinst : is_cli_installed env.home env.pathExists = true)
    (hp : get_cli_install_path env.home = some p) :
    (sync_cli env).versionCmd = some ⟨p, ["--version"]⟩
    ∧ (∀ shellVar, (create_command shellVar p).prog = get_user_shell shellVar) := by
  refine ⟨?_, fun _ => rfl⟩
  rw [sync_cli_run env p hdbg hinst hp]
  cases hv : env.versionSpawn
  · rfl
  · simp only []
    repeat' split
    all_goals rfl

/-- C6 witness: the amended statement at a concrete environment. -/
theorem sync_version_cmd_direct_witness :
    (sync_cli c6env).versionCmd
      = some ⟨"/home/u/.opencode/bin/opencode", ["--version"]⟩ :=
  (sync_version_cmd_direct c6env "/home/u/.opencode/bin/opencode" rfl rfl rfl).1

/-! ## Claim C7 -/

/-- C7 counterexample: JSON that is missing the expected fields —
the empty object — deserializes successfully (serde defaults the
missing `Option` field to `None`), so `get_config` returns a present
configuration, not the absence signal the claim requires. -/
theorem get_config_missing_fields_cex :
    (get_config ⟨some ⟨true, some (.obj [])⟩⟩).isSome = true
    ∧ get_config ⟨some ⟨true, some (.obj [])⟩⟩ = some ⟨none⟩ :=
  ⟨rfl, rfl⟩

/-- C7 (amended): `get_config` returns `None` (never an error) on
process spawn failure, nonzero exit status, stdout that is not valid
JSON, and JSON whose expected fields carry values of the wrong type;
JSON merely missing the optional fields deserializes to a present
configuration with those fields unset; and well-formed JSON with both
optional server fields present yields the corresponding present
configuration. -/
theorem get_config_absence_spec :
    get_config ⟨none⟩ = none
    ∧ (∀ sj, get_config ⟨some ⟨false, sj⟩⟩ = none)
    ∧ get_config ⟨some ⟨true, none⟩⟩ = none
    ∧ (∀ k : Int, get_config ⟨some ⟨true, some (.obj [("server", .num k)])⟩⟩ = none)
    ∧ get_config ⟨some ⟨true, some (.obj [])⟩⟩ = some ⟨none⟩
    ∧ get_config ⟨some ⟨true, some (.obj [("server", .obj [])])⟩⟩
        = some ⟨some ⟨none, none⟩⟩
    ∧ (∀ (h : String) (p : Nat), p ≤ 4294967295 →
        get_config ⟨some ⟨true, some (.obj [("server",
            .obj [("hostname", .str h), ("port", .num (p : Int))])])⟩⟩
          = some ⟨some ⟨some h, some p⟩⟩) := by
  refine ⟨rfl, fun _ => rfl, rfl, fun _ => rfl, rfl, rfl, ?_⟩
  intro h p hp
  have hport : deserializeOptPort (.num (p : Int)) = some (some p) := by
    show (if 0 ≤ (p : Int) ∧ (p : Int) ≤ 4294967295
          then some (some ((p : Int)).toNat) else none) = some (some p)
    rw [if_pos ⟨Int.natCast_nonneg p, by exact_mod_cast hp⟩]
    simp
  show ((match deserializeOptPort (.num (p : Int)) with
         | none => none
         | some p2 => some (ServerConfig.mk (some h) p2)).map some).map
        (fun s => Config.mk s)
      = some ⟨some ⟨some h, some p⟩⟩
  rw [hport]
  rfl

/-- C7 witness: a concrete well-formed configuration with both
fields present is returned. -/
theorem get_config_absence_spec_witness :
    get_config ⟨some ⟨true, some (.obj [("server",
        .obj [("hostname", .str "localhost"), ("port", .num (4096 : Int))])])⟩⟩
      = some ⟨some ⟨some "localhost", some 4096⟩⟩ :=
  get_config_absence_spec.2.2.2.2.2.2 "localhost" 4096 (by decide)

/-! ## Claim C1 -/

/-- A sync environment whose installed binary reports `1.0.0` while
the application's version is `1.0.0+a`: equal SemVer precedence, but
distinct under the crate's build-metadata tiebreak. -/
def c1cexEnv : SyncEnv :=
  ⟨false, some "/home/u", fun _ => true, .ok ⟨true, "1.0.0", ""⟩,
   ⟨1, 0, 0, "", "a"⟩, instOkEnv⟩

/-- C1 counterexample: the installed version `1.0.0` and the
application version `1.0.0+a` are equal under semantic-versioning
precedence (so the claim demands no install), yet `sync_cli` invokes
`install_cli`, because the semver crate's `>=` additionally
tiebreaks on build metadata. -/
theorem sync_cli_precedence_cex :
    (sync_cli c1cexEnv).installInvoked = true
    ∧ parseVersion "1.0.0" = some ⟨1, 0, 0, "", ""⟩
    ∧ c1cexEnv.appVersion = ⟨1, 0, 0, "", "a"⟩
    ∧ semverPrecCmp ⟨1, 0, 0, "", ""⟩ ⟨1, 0, 0, "", "a"⟩ = .eq :=
  ⟨rfl, rfl, rfl, rfl⟩

/-- C1 (amended): in a release build with an installation present
and a parseable installed version, `sync_cli` invokes `install_cli`
iff the installed version is strictly below the application's version
in the semver crate's total order (SemVer precedence refined by a
build-metadata tiebreak).  Whenever neither version carries build
metadata this order coincides with standard SemVer precedence; equal
versions are treated as up to date, and a pre-release sorts strictly
below its corresponding release. -/
theorem sync_cli_installs_iff_crate_order (env : SyncEnv) (v : Version) (o : ProcOutput)
    (hdbg : env.debugBuild = false)
    (hinst : is_cli_installed env.home env.pathExists = true)
    (hspawn : env.versionSpawn = .ok o)
    (hsucc : o.success = true)
    (hparse : parseVersion (strTrim o.stdout) = some v) :
    ((sync_cli env).installInvoked = true ↔ Version.cmp v env.appVersion = .lt)
    ∧ (v.build = "" → env.appVersion.build = "" →
        (Version.cmp v env.appVersion = .lt ↔ semverPrecCmp v env.appVersion = .lt))
    ∧ (v = env.appVersion → (sync_cli env).installInvoked = false)
    ∧ (∀ w : Version, w.pre ≠ "" →
        semverPrecCmp w ⟨w.major, w.minor, w.patch, "", ""⟩ = .lt) := by
  obtain ⟨p, hp⟩ := is_cli_installed_some hinst
  rw [sync_cli_run env p hdbg hinst hp]
  rw [hspawn]
  simp only [hsucc, hparse]
  refine ⟨?_, ?_, ?_, ?_⟩
  · cases hc : Version.cmp v env.appVersion <;>
      simp [hc, ordIsGe] <;>
      cases hir : (install_cli env.installEnv).result <;> simp [hir]
  · intro hb1 hb2
    unfold Version.cmp
    rw [hb1, hb2]
    have hbe : buildCmp "" "" = Ordering.eq := rfl
    rw [hbe, ordThen_eq]
  · intro he
    rw [he]
    simp [version_cmp_self, ordIsGe]
  · intro w hw
    unfold semverPrecCmp
    simp only [natCmp_self, ordEqThen]
    unfold preCmp
    rw [if_neg hw, if_pos rfl]

/-- The C1 witness environment: installed `1.0.0`, application
`1.1.0`. -/
def c1wEnv : SyncEnv :=
  ⟨false, some "/home/u", fun _ => true, .ok ⟨true, "1.0.0\n", ""⟩,
   ⟨1, 1, 0, "", ""⟩, instOkEnv⟩

/-- C1 witness: the install-iff-order equivalence at a concrete
release-build environment with a parseable installed version. -/
theorem sync_cli_installs_iff_crate_order_witness :
    (sync_cli c1wEnv).installInvoked = true
      ↔ Version.cmp ⟨1, 0, 0, "", ""⟩ c1wEnv.appVersion = .lt :=
  (sync_cli_installs_iff_crate_order c1wEnv ⟨1, 0, 0, "", ""⟩ ⟨true, "1.0.0\n", ""⟩
    rfl rfl rfl rfl (by decide)).1

/-! ## Claim C8 -/

lemma goodChar_not_special (c : Char) (h : goodChar c = true) :
    (c = '$' || c = '\\' || c.toNat = 96) = false := by
  unfold goodChar at h
  rw [Bool.not_eq_true'] at h
  simp only [Bool.or_eq_false_iff] at h
  simp only [Bool.or_eq_false_iff]
  exact ⟨⟨h.1.1.2, h.1.2⟩, h.2⟩

lemma parseWordsGo_cons (k : Nat) (c : Char) (cs : List Char) :
    parseWordsGo (k + 1) (c :: cs) =
      match scanQuoted (c :: cs) with
      | none => none
      | some (w, rest) =>
        match rest with
        | [] => some [w]
        | ' ' :: rest2 => (parseWordsGo k rest2).map (fun ws => w :: ws)
        | _ => none := rfl

lemma parseWordsGo_template (path : List Char)
    (hq : path.all (fun c => !(c = '"')) = true) (k : Nat) :
    parseWordsGo (k + 1 + 1) ('"' :: (path ++ ['"', ' ', '"', '$', '@', '"']))
      = some [path, ['$', '@']] := by
  have h1 : scanQuoted ('"' :: (path ++ ['"', ' ', '"', '$', '@', '"']))
      = some (path, [' ', '"', '$', '@', '"']) :=
    scanQuotedAux_closes path [' ', '"', '$', '@', '"'] hq
  rw [parseWordsGo_cons (k + 1), h1]
  rfl

/-- C8 counterexample: the actual argument list carries the
interactive and login flags as the single token `-il`, not as the
separate tokens `-i` and `-l` the claim's command line states. -/
theorem create_command_flags_cex :
    (create_command (some "/bin/sh") "/p").args = ["-il", "-c", "\"/p\" \"$@\"", "--"]
    ∧ (create_command (some "/bin/sh") "/p").args
        ≠ ["-i", "-l", "-c", "\"/p\" \"$@\"", "--"] :=
  ⟨rfl, by decide⟩

/-- C8 (amended): on Unix-family platforms `create_command` builds
the argument list `[-il, -c, "<quoted-target-path>" "$@", --]` with
the caller's arguments appended after the `--` — the interactive and
login flags combined into the single token `-il` — wrapping the
double-quoted target path in an interactive login instance of the
resolved shell; executing that list under the modelled shell
semantics hands the target exactly the appended arguments, each
unchanged as a single token (including arguments containing spaces or
dollar characters), for any target path free of characters that are
special inside double quotes; on the Windows-family platform the
target is invoked directly with the arguments appended verbatim. -/
theorem create_command_unix_spec (shellVar : Option String) (path : String)
    (args : List String) (hpath : path.data.all goodChar = true) :
    (cmdAddArgs (create_command shellVar path) args).prog = get_user_shell shellVar
    ∧ (cmdAddArgs (create_command shellVar path) args).args
        = ["-il", "-c", "\"" ++ path ++ "\" \"$@\"", "--"] ++ args
    ∧ shellExec (cmdAddArgs (create_command shellVar path) args).args
        = some (path :: args)
    ∧ cmdAddArgs (create_command_windows path) args = ⟨path, args⟩ := by
  refine ⟨rfl, rfl, ?_, rfl⟩
  show expandCommandString ("\"" ++ path ++ "\" \"$@\"") args = some (path :: args)
  have hdata : ("\"" ++ path ++ "\" \"$@\"").toList
      = '"' :: (path.data ++ ['"', ' ', '"', '$', '@', '"']) := by
    show (("\"" ++ path) ++ "\" \"$@\"").data = _
    rw [strDataAppend, strDataAppend]
    rfl
  have hlen : ('"' :: (path.data ++ ['"', ' ', '"', '$', '@', '"'])).length
      = path.data.length + 5 + 1 + 1 := by
    simp [List.length_cons, List.length_append]
  have hq : path.data.all (fun c => !(c = '"')) = true := by
    refine List.all_eq_true.mpr fun c hc => ?_
    have hg := List.all_eq_true.mp hpath c hc
    simp only [goodChar, Bool.not_eq_true', Bool.or_eq_false_iff,
      decide_eq_false_iff_not] at hg
    simp [hg.1.1.1]
  have hwords : parseWords (("\"" ++ path ++ "\" \"$@\"").toList)
      = some [path.data, ['$', '@']] := by
    unfold parseWords
    rw [hdata, hlen]
    exact parseWordsGo_template path.data hq (path.data.length + 5)
  have hne : ¬(path.data = ['$', '@']) := by
    intro he
    have h2 := List.all_eq_true.mp hpath '$' (by rw [he]; simp)
    exact (by decide : ¬(goodChar '$' = true)) h2
  have hno : ¬(path.data.any (fun c => c = '$' || c = '\\' || c.toNat = 96) = true) := by
    intro hany
    obtain ⟨c, hc, hbad⟩ := List.any_eq_true.mp hany
    have hg := goodChar_not_special c (List.all_eq_true.mp hpath c hc)
    rw [hg] at hbad
    exact absurd hbad (by decide)
  have e1 : expandWord args path.data = some [path] := by
    unfold expandWord
    rw [if_neg hne, if_neg hno, strMkData]
  have e2 : expandWord args ['$', '@'] = some args := rfl
  have hmap : [path.data, ['$', '@']].mapM (expandWord args) = some [[path], args] := by
    simp [List.mapM, List.mapM.loop, e1, e2]
  unfold expandCommandString
  rw [hwords]
  simp only [hmap]
  simp [List.flatten]

/-- C8 witness: a target path containing a space, with appended
arguments containing a space and a dollar character, all pass
through to the wrapped target unchanged. -/
theorem create_command_unix_spec_witness :
    shellExec (cmdAddArgs (create_command none "/tmp/my app/opencode")
        ["a b", "$HOME"]).args
      = some ["/tmp/my app/opencode", "a b", "$HOME"] :=
  (create_command_unix_spec none "/tmp/my app/opencode" ["a b", "$HOME"]
    (by decide)).2.2.1

end Claudius
